import Mathlib

/-!
Shallow embedding of `saltfactories.factories.daemons.container.ContainerFactory`
(`src/saltfactories/factories/daemons/container.py`).

Modelling conventions:
  * The docker backend is abstracted as an `Oracle`: every externally observable
    behaviour (ping outcome, container status observations, port connectivity,
    `logs` results, `exec_run` results, NotFound errors on `containers.get`
    during teardown) is a function of a global observation index `idx` that the
    interpreter threads through the execution.
  * Wall-clock time is a `Nat`. Every time-consuming action (backend call,
    `time.sleep`) advances the clock by `1 + dt idx`, so time strictly increases
    at every such action; attribute reads advance only the observation index.
    `time.time()` reads the clock without advancing it.
  * Each status attribute access (`container.status`, `self.is_running()`) is
    modelled as an observation of the backend's current status for the
    container, indexed by the observation counter.  This makes the
    status-flapping double check in `start` (lines 144-161) meaningful.
  * The loops of `start` (`while current_attempt <= start_attempts`,
    `while time.time() <= start_running_timeout`) and of `run_start_checks` are
    written as structural recursion on a fuel argument chosen at the call site
    as `deadline + 1 - clock` (resp. `start_attempts + 1 - current_attempt`).
    Because every loop iteration strictly advances the clock (resp. increments
    the counter by exactly one), this fuel is exact: the fuel-zero branch
    coincides with the loop-condition-false branch of the python code.
  * Every interpreter emits an event trace (`Ev`) recording backend calls,
    sleeps, callback invocations and attempt starts, used to state claims
    about "no backend calls", ordering, and call counts.
  * Exceptions that the python code raises are modelled as explicit outcomes
    (`StartOutcome`, `PyErr`); exceptions it swallows (`try/except` around
    callbacks, `except docker.errors.NotFound` in `terminate`) are resolved
    inside the corresponding definitions, mirroring the handlers in the source.
-/

namespace ContainerSpec

/-- Bytes are modelled as `String`; `bytes.decode()` is the identity on this
representation. -/
def decodeBytes (b : String) : String := b

/-- Observable events of an execution, used to state trace properties. -/
inductive Ev where
  | atexitRegister
  | atexitUnregister
  | cbInvoke (n : String)
  | cbError (n : String)
  | pingEv
  | containersRun (id : Nat)
  | containersGet (id : Nat)
  | statusRead (s : String)
  | sleepEv (ms : Nat)
  | removeForce (id : Nat)
  | waitContainer (id : Nat)
  | logsEv
  | probeEv (asked got : List Nat)
  | execEv (demux : Bool)
  | attemptEnter (n : Nat)
  deriving DecidableEq, Repr

/-- A registered callback: its name and whether invoking it raises.
The python code stores `(callback, args, kwargs)` tuples; only the identity
and the raising behaviour are observable through the modelled code paths. -/
structure Callback where
  cname : String
  raises : Bool
  deriving DecidableEq, Repr

/-- Modelled from the spec: `saltfactories.utils.processes.ProcessResult` is not
under `src/`; per the spec it is an immutable record
`{exitcode: integer|absent, stdout: text|absent, stderr: text|absent,
cmdline: sequence of strings|absent}`. -/
structure ProcessResult where
  exitcode : Option Int
  stdout : Option String
  stderr : Option String
  cmdline : Option (List String)
  deriving DecidableEq, Repr

/-- Outcome of `docker_client.ping()` as seen by `client_connectable`:
success, a falsy response, or one of the three caught exception types. -/
inductive PingOutcome where
  | ok
  | notOk
  | apiError (msg : String)
  | connError (msg : String)
  | winError (msg : String)
  deriving DecidableEq, Repr

/-- Outcome of `container.logs(stdout=True, stderr=True, stream=False)`:
a NotFound error, a single combined byte string, or an (stdout, stderr) pair. -/
inductive LogsResult where
  | notFound
  | combined (b : String)
  | split (out err : String)
  deriving DecidableEq, Repr

/-- Outcome of `container.exec_run(...)`: `exit_code` and `output`, where the
output is `None` or a `(stdout|None, stderr|None)` pair of byte streams. -/
structure ExecRet where
  exit_code : Int
  output : Option (Option String × Option String)
  deriving DecidableEq, Repr

/-- The backend oracle: all externally determined behaviour, indexed by the
global observation counter where it may vary over time. -/
structure Oracle where
  ping : PingOutcome
  status : Nat → String
  dt : Nat → Nat
  connectable : Nat → Nat → Bool
  getNotFound : Nat → Bool
  logsAt : Nat → LogsResult
  execAt : Nat → ExecRet

/-- The attrs of a `ContainerFactory` instance relevant to the modelled code.
`container` is the runtime handle attr (a container id, or absent). -/
structure Factory where
  image : String
  name : String
  check_ports : Option (List Nat)
  container : Option Nat
  start_timeout : Nat
  max_start_attempts : Nat
  before_start_callbacks : List Callback
  before_terminate_callbacks : List Callback
  after_start_callbacks : List Callback
  after_terminate_callbacks : List Callback
  deriving DecidableEq, Repr

/-- Interpreter state: the factory (`self`), the clock, the observation
counter, and the event trace. -/
structure St where
  fac : Factory
  clock : Nat
  idx : Nat
  trace : List Ev
  deriving DecidableEq, Repr

/-- Record an event for a time-consuming action: advances the observation
counter and the clock (strictly, by `1 + dt idx`). -/
def eff (o : Oracle) (s : St) (e : Ev) : St :=
  { s with idx := s.idx + 1, clock := s.clock + 1 + o.dt s.idx, trace := s.trace ++ [e] }

/-- Record an event for an instantaneous action (attribute reads, callback
invocation, atexit bookkeeping): advances only the observation counter. -/
def note (s : St) (e : Ev) : St :=
  { s with idx := s.idx + 1, trace := s.trace ++ [e] }

/-- One status attribute observation (`container.status`). -/
def readStatus (o : Oracle) (s : St) : String × St :=
  (o.status s.idx, note s (.statusRead (o.status s.idx)))

/-- Invoke one callback inside the `try/except Exception ... log.info` guard
used at every hook site: the invocation always completes; a raising callback
additionally gets its exception logged. -/
def runCallback (s : St) (cb : Callback) : St :=
  let s1 := note s (.cbInvoke cb.cname)
  if cb.raises then note s1 (.cbError cb.cname) else s1

/-- Run an ordered callback sequence (insertion order), each under the
swallowing guard. -/
def runCallbacks : St → List Callback → St
  | s, [] => s
  | s, cb :: rest => runCallbacks (runCallback s cb) rest

/-- The events emitted by running a callback sequence. -/
def cbEvents : List Callback → List Ev
  | [] => []
  | cb :: rest =>
      (if cb.raises then [.cbInvoke cb.cname, .cbError cb.cname] else [.cbInvoke cb.cname])
        ++ cbEvents rest

/-- Return value of `ContainerFactory.client_connectable`: `True` or a reason
string. -/
inductive Connectable where
  | isTrue
  | reason (msg : String)
  deriving DecidableEq, Repr

/-- `ContainerFactory.client_connectable` (lines 283-290): ping the backend,
mapping a falsy ping response and each of the three caught exception types
(`APIError`, `RequestsConnectionError`, `PyWinTypesError`) to a reason string. -/
def client_connectable (p : PingOutcome) : Connectable :=
  match p with
  | .ok => .isTrue
  | .notOk => .reason "The docker client failed to get a ping response from the docker daemon"
  | .apiError m => .reason ("The docker client failed to ping the docker server: " ++ m)
  | .connError m => .reason ("The docker client failed to ping the docker server: " ++ m)
  | .winError m => .reason ("The docker client failed to ping the docker server: " ++ m)

/-- `ContainerFactory.get_check_ports` (lines 258-262): `self.check_ports or []`
under python truthiness (both `None` and an empty list are falsy). -/
def get_check_ports (f : Factory) : List Nat :=
  match f.check_ports with
  | none => []
  | some l => if l.isEmpty then [] else l

/-- Python exceptions surfaced to callers by the modelled methods. -/
inductive PyErr where
  | attributeError
  | runtimeError (msg : String)
  deriving DecidableEq, Repr

/-- `ContainerFactory.is_running` (lines 264-265): `self.container.status ==
"running"`.  When the handle attr is `None`, the `.status` dereference raises
`AttributeError`. -/
def is_running (o : Oracle) (s : St) : Except PyErr (Bool × St) :=
  match s.fac.container with
  | none => .error .attributeError
  | some _ => .ok ((readStatus o s).1 == "running", (readStatus o s).2)

/-- `ContainerFactory.__enter__` (lines 309-316): raise `RuntimeError` when
`is_running()` is falsy, otherwise return `self`. -/
def enterCtx (o : Oracle) (s : St) : Except PyErr St :=
  match is_running o s with
  | .error e => .error e
  | .ok (b, s') =>
      if !b then .error (.runtimeError "Factory not yet started") else .ok s'

/-- The body of `terminate`'s `try` block after a successful `logs` call:
status check, force-remove and wait when still running, then clear
`self.container` (lines 238-242). -/
def terminateAfterLogs (o : Oracle) (stdout stderr : Option String) (cid : Nat) (s : St) :
    Option String × Option String × St :=
  let st := (readStatus o s).1
  let s1 := (readStatus o s).2
  let s2 :=
    if st == "running" then eff o (eff o s1 (.removeForce cid)) (.waitContainer cid) else s1
  let s3 := { s2 with fac := { s2.fac with container := none } }
  (stdout, stderr, s3)

/-- The `try/except NotFound` suite of `terminate` (lines 229-244): when a
handle exists, fetch the container fresh by id (a NotFound there is swallowed
and leaves the handle in place), capture and decode the combined or split
logs (a NotFound there likewise leaves the fields unset and the handle in
place), and hand over to `terminateAfterLogs`.  Returns the captured
`(stdout, stderr)` and the state. -/
def terminateTryBlock (o : Oracle) (s : St) : Option String × Option String × St :=
  match s.fac.container with
  | none => (none, none, s)
  | some cid =>
      let raisesNF := o.getNotFound s.idx
      let sG := eff o s (.containersGet cid)
      if raisesNF then
        (none, none, sG)
      else
        let logsRes := o.logsAt sG.idx
        let sL := eff o sG .logsEv
        match logsRes with
        | .notFound => (none, none, sL)
        | .combined b => terminateAfterLogs o (some (decodeBytes b)) none cid sL
        | .split a b =>
            terminateAfterLogs o (some (decodeBytes a)) (some (decodeBytes b)) cid sL

/-- `ContainerFactory.terminate` (lines 216-256): unregister the atexit hook,
run before-terminate hooks, then the `try/except NotFound` suite above; the
`finally` clause always runs the after-terminate hooks; return
`ProcessResult(exitcode=0, stdout=stdout, stderr=stderr)`. -/
def terminate (o : Oracle) (s : St) : ProcessResult × St :=
  let s1 := note s .atexitUnregister
  let s2 := runCallbacks s1 s1.fac.before_terminate_callbacks
  let r := terminateTryBlock o s2
  let s4 := runCallbacks r.2.2 r.2.2.fac.after_terminate_callbacks
  (⟨some 0, r.1, r.2.1, none⟩, s4)

/-- The ports among `asked` the probe reports connectable at observation `k`
(`ports.get_connectable_ports`). -/
def connectablePorts (o : Oracle) (k : Nat) (asked : List Nat) : List Nat :=
  asked.filter (fun p => o.connectable k p)

/-- The `while time.time() <= timeout_at` loop of `run_start_checks`
(lines 297-306), fuel-indexed (fuel is exact when chosen as
`timeout_at + 1 - clock`, since each iteration's port probe strictly advances
the clock).  Iteration: `is_running` check (observation of the handle's
status, the handle being present at every call site), break once no ports are
pending, subtract the connectable ports; the `while/else` clause returns
`False` on deadline. -/
def runStartChecksF (o : Oracle) (timeout_at : Nat) : Nat → List Nat → St → Bool × St
  | 0, _, s => (false, s)
  | fuel + 1, pending, s =>
      if s.clock ≤ timeout_at then
        let st := (readStatus o s).1
        let s1 := (readStatus o s).2
        if st == "running" then
          if pending.isEmpty then (true, s1)
          else
            let got := connectablePorts o s1.idx pending
            let s2 := eff o s1 (.probeEv pending got)
            let pending' := pending.filter (fun p => !(o.connectable s1.idx p))
            runStartChecksF o timeout_at fuel pending' s2
        else (false, s1)
      else (false, s)

/-- `ContainerFactory.run_start_checks` (lines 292-307): immediately `True`
when the check-ports set is empty, otherwise the polling loop above.
`started_at` is only used for logging in the source. -/
def run_start_checks (o : Oracle) (_started_at timeout_at : Nat) (s : St) : Bool × St :=
  let cp := get_check_ports s.fac
  if cp.isEmpty then (true, s)
  else runStartChecksF o timeout_at (timeout_at + 1 - s.clock) cp s

/-- The double-check block of `start`'s polling loop, entered once a fresh
status poll observed "running" (lines 151-157): re-read the held handle's
status and replace the handle with the fresh one when stale (lines 151-154),
observe `is_running()` once inside the `log.warning` call (line 156), then
once more for the flap check of line 157, whose observed status is returned
together with the state. -/
def pollDouble (o : Oracle) (cid : Nat) (s2 : St) : String × St :=
  let st2 := (readStatus o s2).1
  let s3 := (readStatus o s2).2
  let s4 :=
    if st2 == "running" then s3
    else { s3 with fac := { s3.fac with container := some cid } }
  let s5 := (readStatus o s4).2
  ((readStatus o s5).1, (readStatus o s5).2)

/-- The `while time.time() <= start_running_timeout` polling loop of `start`
(lines 144-177), fuel-indexed (fuel is exact when chosen as
`start_running_timeout + 1 - clock`, since each iteration's `containers.get`
strictly advances the clock).  Iteration: fetch a fresh handle and observe its
status; when not running, sleep 0.25s and poll again; once running, run the
`pollDouble` double check: a flapped handle is force-removed, waited on, the
handle cleared, and the loop broken to the next attempt; otherwise a failed
`run_start_checks` sleeps 1s and polls again, and a successful one breaks
with the factory started.  The `while/else` clause runs `terminate()` on
deadline.  Returns `factory_started` and the state. -/
def pollLoopF (o : Oracle) (timeout_at cid : Nat) : Nat → St → Bool × St
  | 0, s => (false, (terminate o s).2)
  | fuel + 1, s =>
      if s.clock ≤ timeout_at then
        let s1 := eff o s (.containersGet cid)
        let st1 := (readStatus o s1).1
        let s2 := (readStatus o s1).2
        if st1 == "running" then
          let st4 := (pollDouble o cid s2).1
          let s6 := (pollDouble o cid s2).2
          if st4 == "running" then
            let ready := (run_start_checks o s.clock timeout_at s6).1
            let s7 := (run_start_checks o s.clock timeout_at s6).2
            if ready then (true, s7)
            else pollLoopF o timeout_at cid fuel (eff o s7 (.sleepEv 1000))
          else
            let s7 := eff o s6 (.removeForce cid)
            let s8 := eff o s7 (.waitContainer cid)
            let s9 := { s8 with fac := { s8.fac with container := none } }
            (false, s9)
        else
          pollLoopF o timeout_at cid fuel (eff o s2 (.sleepEv 250))
      else (false, (terminate o s).2)

/-- One full attempt body of `start`'s attempt loop (lines 132-177, after the
`if factory_started: break` check): record the attempt entry (the
`current_attempt += 1` bookkeeping and the "Starting ... Attempt" log), take
the attempt start time, compute the absolute deadline
`current_start_time + timeout` (line 134, before the `containers.run` call),
create and run the container storing the handle (lines 137-143), and run the
polling loop with exact fuel.  Returns `(factory_started, state)`. -/
def attemptOnce (o : Oracle) (timeout ca : Nat) (s : St) : Bool × St :=
  let s1 := note s (.attemptEnter (ca + 1))
  let timeout_at := s1.clock + timeout
  let cid := s1.idx
  let s2' := eff o s1 (.containersRun cid)
  let s2 := { s2' with fac := { s2'.fac with container := some cid } }
  pollLoopF o timeout_at cid (timeout_at + 1 - s2.clock) s2

/-- The `while current_attempt <= start_attempts` attempt loop of `start`
(lines 127-177), fuel-indexed with the invariant `fuel = start_attempts + 1 -
current_attempt` (the counter increments by exactly one per iteration, so the
fuel-zero case is exactly the loop condition turning false).  Body: increment
the counter, break when already started, otherwise run one full attempt.
Returns `(factory_started, current_attempt, state)`. -/
def attemptLoopF (o : Oracle) (start_attempts timeout : Nat) :
    Nat → Nat → Bool → St → Bool × Nat × St
  | 0, ca, started, s => (started, ca, s)
  | fuel + 1, ca, started, s =>
      let ca' := ca + 1
      if started then (started, ca', s)
      else
        let r := attemptOnce o timeout ca s
        attemptLoopF o start_attempts timeout fuel ca' r.1 r.2

/-- Python `x or default` on an optional integer argument: `None` and `0` are
falsy, so both fall back to the instance attribute
(`max_start_attempts or self.max_start_attempts`, line 126, and
`start_timeout or self.start_timeout`, lines 134 and 202). -/
def resolveOr (override : Option Nat) (dflt : Nat) : Nat :=
  match override with
  | none => dflt
  | some n => if n = 0 then dflt else n

/-- The straight-line prefix of `start` (lines 108-123 up to the ping):
register the atexit teardown hook, run the before-start hooks under the
swallowing guard, and make the single `ping` backend call that
`client_connectable` performs. -/
def preLoopState (o : Oracle) (s : St) : St :=
  let s1 := note s .atexitRegister
  let s2 := runCallbacks s1 s1.fac.before_start_callbacks
  eff o s2 .pingEv

/-- The result of a `start` call: normal return `True`, a `pytest.fail` with
the reachability reason, or a `FactoryNotStarted` error.  Modelled from the
spec where it leaves `src/`: `saltfactories.exceptions.FactoryNotStarted` is
not under `src/`; per the spec it is a typed error carrying the message data
(attempts used, total elapsed time, per-attempt timeout) and the captured
stdout/stderr/exitcode, which are the fields recorded here. -/
inductive StartOutcome where
  | ok
  | testFail (msg : String)
  | notStarted (attemptsReported elapsed timeoutEach : Nat) (r : ProcessResult)
  deriving DecidableEq, Repr

/-- `ContainerFactory.start` (lines 107-207): atexit registration,
before-start hooks, the single `client_connectable` reachability check
(terminate-then-fail when it is not `True`), then the attempt loop; on success
run the after-start hooks and return `True`; on exhaustion `terminate()` once
more and raise `FactoryNotStarted` reporting `current_attempt - 1` attempts,
the elapsed time since after the reachability check, the per-attempt timeout,
and the final teardown's stdout/stderr/exitcode. -/
def start (o : Oracle) (max_start_attempts start_timeout : Option Nat) (s : St) :
    StartOutcome × St :=
  let s3 := preLoopState o s
  match client_connectable o.ping with
  | .reason msg => (.testFail msg, (terminate o s3).2)
  | .isTrue =>
      let start_time := s3.clock
      let start_attempts := resolveOr max_start_attempts s3.fac.max_start_attempts
      let tmo := resolveOr start_timeout s3.fac.start_timeout
      let r := attemptLoopF o start_attempts tmo (start_attempts + 1) 0 false s3
      if r.1 then (.ok, runCallbacks r.2.2 r.2.2.fac.after_start_callbacks)
      else
        (.notStarted (r.2.1 - 1) ((terminate o r.2.2).2.clock - start_time) tmo
            (terminate o r.2.2).1,
          (terminate o r.2.2).2)

/-- `ContainerFactory.run` (lines 267-281): exec the command inside the
container with `demux=True` forced, decode each present byte stream, leave an
absent stream as an absent field, and return a `ProcessResult` with the exec's
exit code and the command line.  The `self.container.exec_run` dereference
raises `AttributeError` when the handle attr is `None`. -/
def runExec (o : Oracle) (cmd : List String) (s : St) :
    Except PyErr (ProcessResult × St) :=
  match s.fac.container with
  | none => .error .attributeError
  | some _ =>
      let ret := o.execAt s.idx
      let s1 := eff o s (.execEv true)
      let stdout :=
        match ret.output with
        | none => none
        | some (a, _) => a
      let stderr :=
        match ret.output with
        | none => none
        | some (_, b) => b
      .ok (⟨some ret.exit_code, stdout.map decodeBytes, stderr.map decodeBytes, some cmd⟩, s1)

/-- A fresh interpreter state for a factory that has not been started. -/
def init (f : Factory) : St := ⟨f, 0, 0, []⟩

/-- Is this event the backend ping? -/
def isPing : Ev → Bool
  | .pingEv => true
  | _ => false

/-- Is this event the entry of an attempt-loop body? -/
def isAttempt : Ev → Bool
  | .attemptEnter _ => true
  | _ => false

/-- Is this event a port-probe call? -/
def isProbe : Ev → Bool
  | .probeEv _ _ => true
  | _ => false

/-- Events that are neither a ping nor an attempt-body entry. -/
def quietEv (e : Ev) : Bool := !isPing e && !isAttempt e

/-- Number of events satisfying `p` in a trace. -/
def countEv (p : Ev → Bool) (tr : List Ev) : Nat := (tr.filter p).length

/-- Events that are not the backend ping. -/
def noPing (e : Ev) : Bool := !isPing e

/-- `s'` extends `s`'s trace only with events satisfying `p`. -/
def TraceExt (p : Ev → Bool) (s s' : St) : Prop :=
  ∃ tl, s'.trace = s.trace ++ tl ∧ ∀ e ∈ tl, p e = true

/-- A backend whose container never reports "running". -/
def oracleNeverRunning : Oracle :=
  { ping := .ok, status := fun _ => "created", dt := fun _ => 0,
    connectable := fun _ _ => true, getNotFound := fun _ => false,
    logsAt := fun _ => .split "out" "err", execAt := fun _ => ⟨0, none⟩ }

/-- A backend whose container always reports "running". -/
def oracleAllRunning : Oracle :=
  { ping := .ok, status := fun _ => "running", dt := fun _ => 0,
    connectable := fun _ _ => true, getNotFound := fun _ => false,
    logsAt := fun _ => .split "out" "err", execAt := fun _ => ⟨0, none⟩ }

/-- A backend whose ping returns a falsy response. -/
def oraclePingFalse : Oracle :=
  { ping := .notOk, status := fun _ => "running", dt := fun _ => 0,
    connectable := fun _ _ => true, getNotFound := fun _ => false,
    logsAt := fun _ => .split "out" "err", execAt := fun _ => ⟨0, none⟩ }

/-- A backend where the first attempt's container flaps (observation 8, the
`is_running()` double check of the first poll iteration, reports "created"
although the fresh status read reported "running") and every later
observation reports "running". -/
def oracleFlapOnce : Oracle :=
  { ping := .ok, status := fun k => if k == 8 then "created" else "running",
    dt := fun _ => 0,
    connectable := fun _ _ => true, getNotFound := fun _ => false,
    logsAt := fun _ => .split "out" "err", execAt := fun _ => ⟨0, none⟩ }

/-- A backend that reports NotFound on every `containers.get` during
teardown. -/
def oracleNotFound : Oracle :=
  { ping := .ok, status := fun _ => "running", dt := fun _ => 0,
    connectable := fun _ _ => true, getNotFound := fun _ => true,
    logsAt := fun _ => .split "out" "err", execAt := fun _ => ⟨0, none⟩ }

/-- A plain factory with no check ports, no callbacks and no handle. -/
def facBase : Factory :=
  { image := "img", name := "cont", check_ports := none, container := none,
    start_timeout := 5, max_start_attempts := 3,
    before_start_callbacks := [], before_terminate_callbacks := [],
    after_start_callbacks := [], after_terminate_callbacks := [] }

theorem note_fac (s : St) (e : Ev) : (note s e).fac = s.fac := rfl

theorem note_clock (s : St) (e : Ev) : (note s e).clock = s.clock := rfl

theorem note_trace (s : St) (e : Ev) : (note s e).trace = s.trace ++ [e] := rfl

theorem eff_fac (o : Oracle) (s : St) (e : Ev) : (eff o s e).fac = s.fac := rfl

theorem eff_trace (o : Oracle) (s : St) (e : Ev) : (eff o s e).trace = s.trace ++ [e] := rfl

theorem runCallback_fac (s : St) (cb : Callback) : (runCallback s cb).fac = s.fac := by
  unfold runCallback
  split <;> rfl

theorem runCallback_clock (s : St) (cb : Callback) : (runCallback s cb).clock = s.clock := by
  unfold runCallback
  split <;> rfl

theorem runCallback_trace (s : St) (cb : Callback) :
    (runCallback s cb).trace =
      s.trace ++
        (if cb.raises then [.cbInvoke cb.cname, .cbError cb.cname] else [.cbInvoke cb.cname]) := by
  unfold runCallback
  split <;> simp [note]

theorem runCallbacks_fac : ∀ (cbs : List Callback) (s : St), (runCallbacks s cbs).fac = s.fac
  | [], _ => rfl
  | cb :: rest, s => by
      rw [runCallbacks, runCallbacks_fac rest, runCallback_fac]

theorem runCallbacks_clock :
    ∀ (cbs : List Callback) (s : St), (runCallbacks s cbs).clock = s.clock
  | [], _ => rfl
  | cb :: rest, s => by
      rw [runCallbacks, runCallbacks_clock rest, runCallback_clock]

theorem runCallbacks_trace :
    ∀ (cbs : List Callback) (s : St), (runCallbacks s cbs).trace = s.trace ++ cbEvents cbs
  | [], s => by simp [runCallbacks, cbEvents]
  | cb :: rest, s => by
      rw [runCallbacks, runCallbacks_trace rest, runCallback_trace, cbEvents]
      split <;> simp

theorem cbEvents_quiet : ∀ (cbs : List Callback), ∀ e ∈ cbEvents cbs, quietEv e = true
  | [], e, h => by simp [cbEvents] at h
  | cb :: rest, e, h => by
      rw [cbEvents] at h
      rcases List.mem_append.1 h with h1 | h2
      · split at h1
        · simp only [List.mem_cons, List.mem_singleton, List.not_mem_nil] at h1
          rcases h1 with h | h | h
          · subst h; rfl
          · subst h; rfl
          · exact absurd h (by simp)
        · simp only [List.mem_singleton] at h1
          subst h1; rfl
      · exact cbEvents_quiet rest e h2

theorem countEv_append (p : Ev → Bool) (a b : List Ev) :
    countEv p (a ++ b) = countEv p a + countEv p b := by
  simp [countEv, List.filter_append]

theorem countEv_eq_zero (p : Ev → Bool) (l : List Ev) (h : ∀ e ∈ l, p e = false) :
    countEv p l = 0 := by
  simp only [countEv, List.length_eq_zero, List.filter_eq_nil_iff]
  intro a ha
  simp [h a ha]

theorem quiet_no_ping {l : List Ev} (h : ∀ e ∈ l, quietEv e = true) :
    countEv isPing l = 0 := by
  apply countEv_eq_zero
  intro e he
  have := h e he
  unfold quietEv at this
  cases hp : isPing e
  · rfl
  · rw [hp] at this
    simp at this

theorem quiet_no_attempt {l : List Ev} (h : ∀ e ∈ l, quietEv e = true) :
    countEv isAttempt l = 0 := by
  apply countEv_eq_zero
  intro e he
  have := h e he
  unfold quietEv at this
  cases hp : isAttempt e
  · rfl
  · rw [hp] at this
    simp at this

theorem terminateAfterLogs_eq (o : Oracle) (a b : Option String) (cid : Nat) (s : St) :
    terminateAfterLogs o a b cid s =
      (a, b,
        { fac := { s.fac with container := none },
          clock :=
            if o.status s.idx == "running" then
              s.clock + 1 + o.dt (s.idx + 1) + 1 + o.dt (s.idx + 2)
            else s.clock,
          idx := if o.status s.idx == "running" then s.idx + 3 else s.idx + 1,
          trace :=
            s.trace ++ [Ev.statusRead (o.status s.idx)] ++
              (if o.status s.idx == "running" then
                [Ev.removeForce cid, Ev.waitContainer cid]
              else []) }) := by
  unfold terminateAfterLogs readStatus
  split <;> simp_all [eff, note]

theorem terminateTryBlock_fac (o : Oracle) (s : St) :
    ∃ c, (terminateTryBlock o s).2.2.fac = { s.fac with container := c } := by
  unfold terminateTryBlock
  match h : s.fac.container with
  | none => exact ⟨s.fac.container, by simp [← h]⟩
  | some cid =>
      simp only
      split
      · exact ⟨s.fac.container, by simp [eff, ← h]⟩
      · split
        · exact ⟨s.fac.container, by simp [eff, ← h]⟩
        · rw [terminateAfterLogs_eq]
          exact ⟨none, by simp [eff]⟩
        · rw [terminateAfterLogs_eq]
          exact ⟨none, by simp [eff]⟩

theorem terminateTryBlock_trace (o : Oracle) (s : St) :
    ∃ tl, (terminateTryBlock o s).2.2.trace = s.trace ++ tl ∧ ∀ e ∈ tl, quietEv e = true := by
  unfold terminateTryBlock
  match h : s.fac.container with
  | none => exact ⟨[], by simp⟩
  | some cid =>
      simp only
      split
      · exact ⟨[.containersGet cid], by simp [eff], by intro e he; simp at he; subst he; rfl⟩
      · split
        · exact
            ⟨[.containersGet cid, .logsEv], by simp [eff], by
              intro e he
              simp only [List.mem_cons, List.not_mem_nil, or_false, List.mem_singleton] at he
              rcases he with h | h <;> subst h <;> rfl⟩
        all_goals
          rw [terminateAfterLogs_eq]
          refine
            ⟨[.containersGet cid, .logsEv,
                .statusRead (o.status (s.idx + 2))] ++
              (if o.status (s.idx + 2) == "running" then
                [Ev.removeForce cid, Ev.waitContainer cid]
              else []),
              by simp [eff], ?_⟩
          intro e he
          simp only [List.mem_append, List.mem_cons, List.not_mem_nil, or_false] at he
          rcases he with (h | h | h) | h
          · subst h; rfl
          · subst h; rfl
          · subst h; rfl
          · split at h
            · simp only [List.mem_cons, List.not_mem_nil, or_false] at h
              rcases h with h | h <;> subst h <;> rfl
            · exact absurd h (by simp)

theorem terminate_trace (o : Oracle) (s : St) :
    ∃ tl, (terminate o s).2.trace =
        s.trace ++ [Ev.atexitUnregister] ++ cbEvents s.fac.before_terminate_callbacks ++ tl
          ++ cbEvents s.fac.after_terminate_callbacks ∧
      ∀ e ∈ tl, quietEv e = true := by
  obtain ⟨tl, htl, hq⟩ :=
    terminateTryBlock_trace o (runCallbacks (note s .atexitUnregister)
      (note s .atexitUnregister).fac.before_terminate_callbacks)
  obtain ⟨c, hfac⟩ :=
    terminateTryBlock_fac o (runCallbacks (note s .atexitUnregister)
      (note s .atexitUnregister).fac.before_terminate_callbacks)
  refine ⟨tl, ?_, hq⟩
  show (runCallbacks _ _).trace = _
  rw [runCallbacks_trace, hfac, htl, runCallbacks_trace, note_trace, runCallbacks_fac, note_fac]

theorem terminate_trace_quiet (o : Oracle) (s : St) :
    ∃ tl, (terminate o s).2.trace = s.trace ++ tl ∧ ∀ e ∈ tl, quietEv e = true := by
  obtain ⟨tl, htl, hq⟩ := terminate_trace o s
  refine
    ⟨[Ev.atexitUnregister] ++ cbEvents s.fac.before_terminate_callbacks ++ tl
        ++ cbEvents s.fac.after_terminate_callbacks, by rw [htl]; simp, ?_⟩
  intro e he
  simp only [List.mem_append, List.mem_singleton] at he
  rcases he with ((h | h) | h) | h
  · subst h; rfl
  · exact cbEvents_quiet _ e h
  · exact hq e h
  · exact cbEvents_quiet _ e h

theorem TraceExt.refl (p : Ev → Bool) (s : St) : TraceExt p s s := ⟨[], by simp, by simp⟩

theorem TraceExt.trans {p : Ev → Bool} {s1 s2 s3 : St} (h1 : TraceExt p s1 s2)
    (h2 : TraceExt p s2 s3) : TraceExt p s1 s3 := by
  obtain ⟨a, ha, hqa⟩ := h1
  obtain ⟨b, hb, hqb⟩ := h2
  refine ⟨a ++ b, by rw [hb, ha, List.append_assoc], ?_⟩
  intro e he
  rcases List.mem_append.1 he with h | h
  · exact hqa e h
  · exact hqb e h

theorem TraceExt.ofTraceEq {p : Ev → Bool} {s s' : St} (h : s'.trace = s.trace) :
    TraceExt p s s' := ⟨[], by simp [h], by simp⟩

theorem TraceExt.noteExt {p : Ev → Bool} (s : St) (e : Ev) (he : p e = true) :
    TraceExt p s (note s e) := ⟨[e], rfl, by simpa using he⟩

theorem TraceExt.effExt {p : Ev → Bool} (o : Oracle) (s : St) (e : Ev) (he : p e = true) :
    TraceExt p s (eff o s e) := ⟨[e], rfl, by simpa using he⟩

theorem TraceExt.mono {p q : Ev → Bool} {s s' : St} (h : TraceExt p s s')
    (hpq : ∀ e, p e = true → q e = true) : TraceExt q s s' := by
  obtain ⟨tl, htl, hq⟩ := h
  exact ⟨tl, htl, fun e he => hpq e (hq e he)⟩

theorem TraceExt.count {p : Ev → Bool} {s s' : St} (h : TraceExt p s s') (q : Ev → Bool)
    (hq : ∀ e, p e = true → q e = false) : countEv q s'.trace = countEv q s.trace := by
  obtain ⟨tl, htl, hquiet⟩ := h
  rw [htl, countEv_append, countEv_eq_zero q tl (fun e he => hq e (hquiet e he))]
  omega

theorem quiet_noPing : ∀ e, quietEv e = true → noPing e = true := by
  intro e h
  simp only [quietEv, Bool.and_eq_true] at h
  unfold noPing
  exact h.1

theorem quiet_isPing_false : ∀ e, quietEv e = true → isPing e = false := by
  intro e h
  have := quiet_noPing e h
  unfold noPing at this
  simpa using this

theorem quiet_isAttempt_false : ∀ e, quietEv e = true → isAttempt e = false := by
  intro e h
  simp only [quietEv, Bool.and_eq_true] at h
  simpa using h.2

theorem runCallbacks_quiet (s : St) (cbs : List Callback) :
    TraceExt quietEv s (runCallbacks s cbs) :=
  ⟨cbEvents cbs, runCallbacks_trace cbs s, cbEvents_quiet cbs⟩

theorem terminate_quiet (o : Oracle) (s : St) : TraceExt quietEv s (terminate o s).2 := by
  obtain ⟨tl, htl, hq⟩ := terminate_trace_quiet o s
  exact ⟨tl, htl, hq⟩

theorem readStatus_quiet (o : Oracle) (s : St) : TraceExt quietEv s (readStatus o s).2 :=
  TraceExt.noteExt s _ rfl

theorem runStartChecksF_quiet (o : Oracle) (t : Nat) :
    ∀ (fuel : Nat) (pending : List Nat) (s : St),
      TraceExt quietEv s (runStartChecksF o t fuel pending s).2
  | 0, _, s => TraceExt.refl _ s
  | fuel + 1, pending, s => by
      rw [runStartChecksF]
      dsimp only
      split
      · split
        · split
          · exact readStatus_quiet o s
          · exact ((readStatus_quiet o s).trans
              (TraceExt.effExt o (readStatus o s).2
                (Ev.probeEv pending (connectablePorts o (readStatus o s).2.idx pending))
                rfl)).trans
              (runStartChecksF_quiet o t fuel _ _)
        · exact readStatus_quiet o s
      · exact TraceExt.refl _ s

theorem run_start_checks_quiet (o : Oracle) (a t : Nat) (s : St) :
    TraceExt quietEv s (run_start_checks o a t s).2 := by
  rw [run_start_checks]
  split
  · exact TraceExt.refl _ s
  · exact runStartChecksF_quiet o t _ _ s

theorem pollDouble_quiet (o : Oracle) (cid : Nat) (s2 : St) :
    TraceExt quietEv s2 (pollDouble o cid s2).2 := by
  rw [pollDouble]
  dsimp only
  split
  · exact ((readStatus_quiet o s2).trans (readStatus_quiet o _)).trans (readStatus_quiet o _)
  · exact (((readStatus_quiet o s2).trans (TraceExt.ofTraceEq rfl)).trans
      (readStatus_quiet o _)).trans (readStatus_quiet o _)

theorem pollLoopF_quiet (o : Oracle) (t cid : Nat) :
    ∀ (fuel : Nat) (s : St), TraceExt quietEv s (pollLoopF o t cid fuel s).2
  | 0, s => terminate_quiet o s
  | fuel + 1, s => by
      rw [pollLoopF]
      dsimp only
      have hGet : TraceExt quietEv s (eff o s (Ev.containersGet cid)) :=
        TraceExt.effExt o s (Ev.containersGet cid) rfl
      have hS2 : TraceExt quietEv s (readStatus o (eff o s (Ev.containersGet cid))).2 :=
        hGet.trans (readStatus_quiet o _)
      have hS6 : TraceExt quietEv s
          (pollDouble o cid (readStatus o (eff o s (Ev.containersGet cid))).2).2 :=
        hS2.trans (pollDouble_quiet o cid _)
      split
      · split
        · split
          · split
            · exact hS6.trans (run_start_checks_quiet o s.clock t _)
            · exact ((hS6.trans (run_start_checks_quiet o s.clock t _)).trans
                (TraceExt.effExt o _ (Ev.sleepEv 1000) rfl)).trans
                (pollLoopF_quiet o t cid fuel _)
          · exact (((hS6.trans (TraceExt.effExt o _ (Ev.removeForce cid) rfl)).trans
              (TraceExt.effExt o _ (Ev.waitContainer cid) rfl)).trans
              (TraceExt.ofTraceEq rfl))
        · exact (hS2.trans (TraceExt.effExt o _ (Ev.sleepEv 250) rfl)).trans
            (pollLoopF_quiet o t cid fuel _)
      · exact terminate_quiet o s

theorem pollLoopF_never (o : Oracle) (t cid : Nat) (hnr : ∀ k, o.status k ≠ "running") :
    ∀ (fuel : Nat) (s : St), (pollLoopF o t cid fuel s).1 = false
  | 0, _ => rfl
  | fuel + 1, s => by
      rw [pollLoopF]
      dsimp only
      split
      · rw [if_neg (by simp [readStatus, hnr])]
        exact pollLoopF_never o t cid hnr fuel _
      · rfl

theorem attemptOnce_never (o : Oracle) (tmo ca : Nat) (s : St)
    (hnr : ∀ k, o.status k ≠ "running") : (attemptOnce o tmo ca s).1 = false := by
  rw [attemptOnce]
  exact pollLoopF_never o _ _ hnr _ _

theorem attemptOnce_noPing (o : Oracle) (tmo ca : Nat) (s : St) :
    TraceExt noPing s (attemptOnce o tmo ca s).2 := by
  rw [attemptOnce]
  dsimp only
  refine ((TraceExt.noteExt s (Ev.attemptEnter (ca + 1)) rfl).trans ?_).trans
    ((pollLoopF_quiet o _ _ _ _).mono quiet_noPing)
  exact (TraceExt.effExt o _ (Ev.containersRun (note s (Ev.attemptEnter (ca + 1))).idx)
    rfl).trans (TraceExt.ofTraceEq rfl)

theorem attemptOnce_counts (o : Oracle) (tmo ca : Nat) (s : St) :
    countEv isAttempt (attemptOnce o tmo ca s).2.trace = countEv isAttempt s.trace + 1 ∧
      countEv isPing (attemptOnce o tmo ca s).2.trace = countEv isPing s.trace := by
  rw [attemptOnce]
  dsimp only
  have hq := pollLoopF_quiet o ((note s (Ev.attemptEnter (ca + 1))).clock + tmo)
    (note s (Ev.attemptEnter (ca + 1))).idx
    ((note s (Ev.attemptEnter (ca + 1))).clock + tmo + 1 -
      (eff o (note s (Ev.attemptEnter (ca + 1)))
        (Ev.containersRun (note s (Ev.attemptEnter (ca + 1))).idx)).clock)
  constructor
  · rw [(hq _).count isAttempt quiet_isAttempt_false]
    show countEv isAttempt ((s.trace ++ [Ev.attemptEnter (ca + 1)]) ++ [_]) = _
    rw [countEv_append, countEv_append]
    simp [countEv, isAttempt]
  · rw [(hq _).count isPing quiet_isPing_false]
    show countEv isPing ((s.trace ++ [Ev.attemptEnter (ca + 1)]) ++ [_]) = _
    rw [countEv_append, countEv_append]
    simp [countEv, isPing]

theorem attemptLoopF_noPing (o : Oracle) (sa tmo : Nat) :
    ∀ (fuel ca : Nat) (started : Bool) (s : St),
      TraceExt noPing s (attemptLoopF o sa tmo fuel ca started s).2.2
  | 0, ca, started, s => TraceExt.refl _ s
  | fuel + 1, ca, started, s => by
      rw [attemptLoopF]
      dsimp only
      split
      · exact TraceExt.refl _ s
      · exact (attemptOnce_noPing o tmo ca s).trans (attemptLoopF_noPing o sa tmo fuel _ _ _)

theorem attemptLoopF_never (o : Oracle) (sa tmo : Nat) (hnr : ∀ k, o.status k ≠ "running") :
    ∀ (fuel ca : Nat) (s : St), ∃ s',
      attemptLoopF o sa tmo fuel ca false s = (false, ca + fuel, s') ∧
      countEv isAttempt s'.trace = countEv isAttempt s.trace + fuel ∧
      countEv isPing s'.trace = countEv isPing s.trace
  | 0, ca, s => ⟨s, rfl, by simp, rfl⟩
  | fuel + 1, ca, s => by
      rw [attemptLoopF]
      dsimp only
      rw [if_neg (by simp)]
      rw [attemptOnce_never o tmo ca s hnr]
      obtain ⟨s', heq, hA, hP⟩ :=
        attemptLoopF_never o sa tmo hnr fuel (ca + 1) (attemptOnce o tmo ca s).2
      obtain ⟨hA1, hP1⟩ := attemptOnce_counts o tmo ca s
      refine ⟨s', ?_, by omega, by omega⟩
      rw [heq]
      have h : ca + 1 + fuel = ca + (fuel + 1) := by omega
      rw [h]

theorem preLoopState_fac (o : Oracle) (s : St) : (preLoopState o s).fac = s.fac := by
  rw [preLoopState]
  rw [eff_fac, runCallbacks_fac, note_fac]

theorem preLoopState_trace (o : Oracle) (s : St) :
    (preLoopState o s).trace =
      s.trace ++ [Ev.atexitRegister] ++ cbEvents s.fac.before_start_callbacks ++ [Ev.pingEv] := by
  rw [preLoopState]
  rw [eff_trace, runCallbacks_trace, note_trace, note_fac]

theorem preLoopState_count_attempt (o : Oracle) (s : St) :
    countEv isAttempt (preLoopState o s).trace = countEv isAttempt s.trace := by
  rw [preLoopState_trace, countEv_append, countEv_append, countEv_append,
    countEv_eq_zero isAttempt (cbEvents _)
      (fun e he => quiet_isAttempt_false e (cbEvents_quiet _ e he))]
  simp [countEv, isAttempt]

theorem preLoopState_count_ping (o : Oracle) (s : St) :
    countEv isPing (preLoopState o s).trace = countEv isPing s.trace + 1 := by
  rw [preLoopState_trace, countEv_append, countEv_append, countEv_append,
    countEv_eq_zero isPing (cbEvents _)
      (fun e he => quiet_isPing_false e (cbEvents_quiet _ e he))]
  simp [countEv, isPing]

theorem start_never_spec (o : Oracle) (ma tm : Option Nat) (s : St) (N : Nat)
    (hping : o.ping = PingOutcome.ok)
    (hres : resolveOr ma s.fac.max_start_attempts = N)
    (hnr : ∀ k, o.status k ≠ "running") :
    ∃ s', attemptLoopF o N (resolveOr tm s.fac.start_timeout) (N + 1) 0 false (preLoopState o s)
        = (false, N + 1, s') ∧
      start o ma tm s =
        (StartOutcome.notStarted N ((terminate o s').2.clock - (preLoopState o s).clock)
            (resolveOr tm s.fac.start_timeout) (terminate o s').1,
          (terminate o s').2) ∧
      countEv isAttempt s'.trace = countEv isAttempt s.trace + (N + 1) := by
  obtain ⟨s', heq, hA, hP⟩ :=
    attemptLoopF_never o N (resolveOr tm s.fac.start_timeout) hnr (N + 1) 0 (preLoopState o s)
  have heq' : attemptLoopF o N (resolveOr tm s.fac.start_timeout) (N + 1) 0 false
      (preLoopState o s) = (false, N + 1, s') := by
    rw [heq]
    rw [Nat.zero_add]
  refine ⟨s', heq', ?_, ?_⟩
  · rw [start, hping]
    dsimp only [client_connectable]
    rw [preLoopState_fac, hres, heq']
    dsimp only
    rw [Nat.add_sub_cancel, if_neg (by simp)]
  · rw [hA, preLoopState_count_attempt]

theorem terminateTryBlock_none (o : Oracle) (s : St) (h : s.fac.container = none) :
    terminateTryBlock o s = (none, none, s) := by
  rw [terminateTryBlock, h]

theorem terminate_none_helper (o : Oracle) (s : St) (h : s.fac.container = none) :
    (terminate o s).1 = ⟨some 0, none, none, none⟩ ∧
    (terminate o s).2.fac = s.fac ∧
    (terminate o s).2.trace = s.trace ++ [Ev.atexitUnregister]
      ++ cbEvents s.fac.before_terminate_callbacks
      ++ cbEvents s.fac.after_terminate_callbacks := by
  have h2fac : (runCallbacks (note s Ev.atexitUnregister)
      (note s Ev.atexitUnregister).fac.before_terminate_callbacks).fac = s.fac := by
    rw [runCallbacks_fac, note_fac]
  have htb := terminateTryBlock_none o
    (runCallbacks (note s Ev.atexitUnregister)
      (note s Ev.atexitUnregister).fac.before_terminate_callbacks) (by rw [h2fac, h])
  refine ⟨?_, ?_, ?_⟩
  · rw [terminate]
    dsimp only
    rw [htb]
  · rw [terminate]
    dsimp only
    rw [htb]
    dsimp only
    rw [runCallbacks_fac, h2fac]
  · rw [terminate]
    dsimp only
    rw [htb]
    dsimp only
    rw [runCallbacks_trace, h2fac, runCallbacks_trace, note_trace, note_fac]

/-- C1: on a start call whose resource never becomes ready (every status
observation differs from "running", so no break occurs), with resolved
attempt count `N ≥ 1`, the attempt-loop body executes exactly `N + 1` times:
the counter starts at 0 and the loop runs while `current_attempt <= N`,
giving inclusive-bound semantics with `N + 1` iterations. -/
theorem startAttemptBodyCount (o : Oracle) (ma tm : Option Nat) (s : St) (N : Nat)
    (hping : o.ping = PingOutcome.ok) (_hN : 1 ≤ N)
    (hres : resolveOr ma s.fac.max_start_attempts = N)
    (hnr : ∀ k, o.status k ≠ "running") :
    countEv isAttempt (start o ma tm s).2.trace = countEv isAttempt s.trace + (N + 1) := by
  obtain ⟨s', _, hstart, hcount⟩ := start_never_spec o ma tm s N hping hres hnr
  rw [hstart]
  dsimp only
  rw [(terminate_quiet o s').count isAttempt quiet_isAttempt_false, hcount]

/-- Witness for C1: a never-ready backend with an overridden attempt count of
1 runs the attempt body exactly twice. -/
theorem startAttemptBodyCount_witness :
    countEv isAttempt (start oracleNeverRunning (some 1) none (init facBase)).2.trace =
      countEv isAttempt (init facBase).trace + (1 + 1) :=
  startAttemptBodyCount oracleNeverRunning (some 1) none (init facBase) 1 rfl
    (by decide) (by decide) (fun _ => by simp [oracleNeverRunning])

/-- C2: a start call that exhausts all attempts without the resource becoming
ready calls `terminate` one final time and raises `FactoryNotStarted` whose
attempts-used field is `N` (the resolved configured/overridden attempts
count), whose elapsed-time field is the time from after the reachability
check to after the final teardown, whose per-attempt-timeout field is the
resolved timeout, and which carries the stdout/stderr/exitcode of that final
teardown's `ProcessResult`. -/
theorem startExhaustedRaisesNotStarted (o : Oracle) (ma tm : Option Nat) (s : St) (N : Nat)
    (hping : o.ping = PingOutcome.ok)
    (hres : resolveOr ma s.fac.max_start_attempts = N)
    (hnr : ∀ k, o.status k ≠ "running") :
    ∃ s', attemptLoopF o N (resolveOr tm s.fac.start_timeout) (N + 1) 0 false (preLoopState o s)
        = (false, N + 1, s') ∧
      start o ma tm s =
        (StartOutcome.notStarted N ((terminate o s').2.clock - (preLoopState o s).clock)
            (resolveOr tm s.fac.start_timeout) (terminate o s').1,
          (terminate o s').2) := by
  obtain ⟨s', h1, h2, _⟩ := start_never_spec o ma tm s N hping hres hnr
  exact ⟨s', h1, h2⟩

/-- Witness for C2 at a concrete never-ready backend with the configured
3 attempts. -/
theorem startExhaustedRaisesNotStarted_witness :
    ∃ s', attemptLoopF oracleNeverRunning 3
        (resolveOr none (init facBase).fac.start_timeout) (3 + 1) 0 false
        (preLoopState oracleNeverRunning (init facBase)) = (false, 3 + 1, s') ∧
      start oracleNeverRunning none none (init facBase) =
        (StartOutcome.notStarted 3
            ((terminate oracleNeverRunning s').2.clock -
              (preLoopState oracleNeverRunning (init facBase)).clock)
            (resolveOr none (init facBase).fac.start_timeout)
            (terminate oracleNeverRunning s').1,
          (terminate oracleNeverRunning s').2) :=
  startExhaustedRaisesNotStarted oracleNeverRunning none none (init facBase) 3 rfl
    (by decide) (fun _ => by simp [oracleNeverRunning])

/-- C3: `terminate` on a controller whose handle is absent performs only the
atexit-unregister bookkeeping and the before/after-terminate hook sequences
(no backend events appear in the trace extension), leaves the factory
unchanged, returns `ProcessResult(exitcode=0, stdout=None, stderr=None)`, and
a second consecutive `terminate` returns the same empty result. -/
theorem terminateIdempotentNoHandle (o : Oracle) (s : St) (h : s.fac.container = none) :
    (terminate o s).1 = ⟨some 0, none, none, none⟩ ∧
    (terminate o s).2.fac = s.fac ∧
    (terminate o s).2.trace = s.trace ++ [Ev.atexitUnregister]
      ++ cbEvents s.fac.before_terminate_callbacks
      ++ cbEvents s.fac.after_terminate_callbacks ∧
    (terminate o (terminate o s).2).1 = ⟨some 0, none, none, none⟩ := by
  obtain ⟨h1, h2, h3⟩ := terminate_none_helper o s h
  refine ⟨h1, h2, h3, ?_⟩
  exact (terminate_none_helper o (terminate o s).2 (by rw [h2, h])).1

/-- Witness for C3 on a handleless factory with terminate hooks registered. -/
theorem terminateIdempotentNoHandle_witness :
    (terminate oracleAllRunning (init facBase)).1 = ⟨some 0, none, none, none⟩ ∧
    (terminate oracleAllRunning (init facBase)).2.fac = (init facBase).fac ∧
    (terminate oracleAllRunning (init facBase)).2.trace =
      (init facBase).trace ++ [Ev.atexitUnregister]
        ++ cbEvents (init facBase).fac.before_terminate_callbacks
        ++ cbEvents (init facBase).fac.after_terminate_callbacks ∧
    (terminate oracleAllRunning (terminate oracleAllRunning (init facBase)).2).1 =
      ⟨some 0, none, none, none⟩ :=
  terminateIdempotentNoHandle oracleAllRunning (init facBase) (by decide)

/-- C4: hook failures are swallowed at every lifecycle point: (1) running a
callback sequence invokes every callback in insertion order, logging (and
swallowing) the exception of each raising callback, and never stops early —
the emitted events are exactly `cbEvents`; (2) a `start` whose before-start
hook always raises still returns `True` when runtime conditions are otherwise
satisfied; (3) a `terminate` whose before- and after-terminate hooks always
raise still returns the normal empty result. -/
theorem hookFailuresSwallowed :
    (∀ (s : St) (cbs : List Callback), (runCallbacks s cbs).trace = s.trace ++ cbEvents cbs) ∧
    (∀ n : String,
      (start oracleAllRunning none none
        (init { facBase with before_start_callbacks := [⟨n, true⟩] })).1 = StartOutcome.ok) ∧
    (∀ n : String,
      (terminate oracleAllRunning
        (init { facBase with before_terminate_callbacks := [⟨n, true⟩],
                             after_terminate_callbacks := [⟨n, true⟩] })).1 =
        ⟨some 0, none, none, none⟩) :=
  ⟨fun s cbs => runCallbacks_trace cbs s, fun _ => rfl, fun _ => rfl⟩

theorem start_noPing_tail (o : Oracle) (ma tm : Option Nat) (s : St) :
    TraceExt noPing (preLoopState o s) (start o ma tm s).2 := by
  rw [start]
  rcases hcc : client_connectable o.ping with _ | m
  · dsimp only
    split
    · exact (attemptLoopF_noPing o _ _ _ _ _ _).trans
        ((runCallbacks_quiet _ _).mono quiet_noPing)
    · exact (attemptLoopF_noPing o _ _ _ _ _ _).trans
        ((terminate_quiet o _).mono quiet_noPing)
  · dsimp only
    exact (terminate_quiet o _).mono quiet_noPing

/-- C5: the reachability check: (1) every `start` trace contains the ping
exactly once, after only the atexit-register and before-start hook events and
before everything else (in particular before every attempt, since the later
tail carries no further ping); (2) when `client_connectable` is not `True`,
`start` terminates and then fails immediately with the reachability reason as
the failure message; (3)-(6) `client_connectable` maps a falsy ping response,
a backend API error, a transport-level connection error and a
platform-specific native error to descriptive strings; (7) it returns `True`
exactly when the ping succeeds. -/
theorem reachabilityCheckedOnce (o : Oracle) (ma tm : Option Nat) (s : St) :
    (∃ t1 t2, (start o ma tm s).2.trace = s.trace ++ t1 ++ [Ev.pingEv] ++ t2 ∧
      (∀ e ∈ t1, quietEv e = true) ∧ (∀ e ∈ t2, isPing e = false)) ∧
    (∀ m, client_connectable o.ping = Connectable.reason m →
      start o ma tm s = (StartOutcome.testFail m, (terminate o (preLoopState o s)).2)) ∧
    client_connectable PingOutcome.notOk =
      Connectable.reason
        "The docker client failed to get a ping response from the docker daemon" ∧
    (∀ m, client_connectable (PingOutcome.apiError m) =
      Connectable.reason ("The docker client failed to ping the docker server: " ++ m)) ∧
    (∀ m, client_connectable (PingOutcome.connError m) =
      Connectable.reason ("The docker client failed to ping the docker server: " ++ m)) ∧
    (∀ m, client_connectable (PingOutcome.winError m) =
      Connectable.reason ("The docker client failed to ping the docker server: " ++ m)) ∧
    (∀ p, client_connectable p = Connectable.isTrue ↔ p = PingOutcome.ok) := by
  refine ⟨?_, ?_, rfl, fun m => rfl, fun m => rfl, fun m => rfl, ?_⟩
  · obtain ⟨t2, ht2, hq2⟩ := start_noPing_tail o ma tm s
    refine ⟨[Ev.atexitRegister] ++ cbEvents s.fac.before_start_callbacks, t2, ?_, ?_,
      fun e he => by simpa [noPing] using hq2 e he⟩
    · rw [ht2, preLoopState_trace]
      simp [List.append_assoc]
    · intro e he
      rcases List.mem_append.1 he with h | h
      · simp only [List.mem_singleton] at h
        subst h
        rfl
      · exact cbEvents_quiet _ e h
  · intro m hcc
    rw [start, hcc]
  · intro p
    constructor
    · intro h
      cases p <;> simp [client_connectable] at h ⊢
    · intro h
      subst h
      rfl

/-- Witness for C5: a falsy ping makes `start` terminate and fail with the
descriptive reason. -/
theorem reachabilityCheckedOnce_witness :
    start oraclePingFalse none none (init facBase) =
      (StartOutcome.testFail
          "The docker client failed to get a ping response from the docker daemon",
        (terminate oraclePingFalse (preLoopState oraclePingFalse (init facBase))).2) :=
  (reachabilityCheckedOnce oraclePingFalse none none (init facBase)).2.1 _ rfl

/-- C6: a descriptor whose check-ports set is empty (absent or an empty
collection) makes `run_start_checks` return `True` immediately with the state
untouched (no port-probe calls, no status reads); `get_check_ports` maps both
an absent and an empty collection to `[]`; and a `start` against an
all-running backend with no check ports succeeds with zero port probes in its
whole trace. -/
theorem emptyCheckPortsImmediate (o : Oracle) (a t : Nat) (s : St) :
    (get_check_ports s.fac = [] → run_start_checks o a t s = (true, s)) ∧
    (s.fac.check_ports = none ∨ s.fac.check_ports = some [] → get_check_ports s.fac = []) ∧
    ((start oracleAllRunning none none (init facBase)).1 = StartOutcome.ok ∧
      countEv isProbe (start oracleAllRunning none none (init facBase)).2.trace = 0) := by
  refine ⟨?_, ?_, by decide, by decide⟩
  · intro h
    rw [run_start_checks, h]
    rfl
  · rintro (h | h) <;> simp [get_check_ports, h]

/-- Witness for C6 on a factory with absent check ports. -/
theorem emptyCheckPortsImmediate_witness :
    run_start_checks oracleAllRunning 0 5 (init facBase) = (true, init facBase) :=
  (emptyCheckPortsImmediate oracleAllRunning 0 5 (init facBase)).1 (by decide)

/-- C8: `run` on a running resource always passes `demux=True` to the exec
facility (recorded in the emitted event), passes the exec's exit code
through, decodes each present byte stream, maps an absent stream to an
absent field (never an empty string), and records the command line. -/
theorem runExecSeparatesStreams (o : Oracle) (cmd : List String) (s : St) (cid : Nat)
    (h : s.fac.container = some cid) :
    runExec o cmd s = .ok
      (⟨some (o.execAt s.idx).exit_code,
        (match (o.execAt s.idx).output with
         | none => none
         | some (a, _) => a).map decodeBytes,
        (match (o.execAt s.idx).output with
         | none => none
         | some (_, b) => b).map decodeBytes,
        some cmd⟩,
        eff o s (.execEv true)) := by
  rw [runExec, h]

/-- Witness for C8 with a present stdout stream and an absent stderr. -/
theorem runExecSeparatesStreams_witness :
    runExec oracleAllRunning ["echo", "foo"] (init { facBase with container := some 7 }) =
      .ok
        (⟨some (oracleAllRunning.execAt (init { facBase with container := some 7 }).idx).exit_code,
          (match (oracleAllRunning.execAt (init { facBase with container := some 7 }).idx).output
           with
           | none => none
           | some (a, _) => a).map decodeBytes,
          (match (oracleAllRunning.execAt (init { facBase with container := some 7 }).idx).output
           with
           | none => none
           | some (_, b) => b).map decodeBytes,
          some ["echo", "foo"]⟩,
          eff oracleAllRunning (init { facBase with container := some 7 }) (.execEv true)) :=
  runExecSeparatesStreams oracleAllRunning ["echo", "foo"]
    (init { facBase with container := some 7 }) 7 (by decide)

theorem terminateTryBlock_notFound (o : Oracle) (s : St) (cid : Nat)
    (hc : s.fac.container = some cid) (hnf : o.getNotFound s.idx = true) :
    terminateTryBlock o s = (none, none, eff o s (.containersGet cid)) := by
  rw [terminateTryBlock, hc]
  dsimp only
  rw [if_pos hnf]

/-- C9: the after-terminate hooks run in the `finally` region of every
`terminate` call, whatever the try-suite did (their events close every
terminate trace); and a backend NotFound during the capture/removal step is
swallowed: `terminate` still returns the normal empty result, with only the
single `containers.get` between the two hook sequences. -/
theorem afterTerminateHooksAlwaysRun (o : Oracle) (s : St) :
    (∃ tl, (terminate o s).2.trace =
        s.trace ++ [Ev.atexitUnregister] ++ cbEvents s.fac.before_terminate_callbacks ++ tl
          ++ cbEvents s.fac.after_terminate_callbacks ∧ ∀ e ∈ tl, quietEv e = true) ∧
    (∀ cid, s.fac.container = some cid → (∀ k, o.getNotFound k = true) →
      (terminate o s).1 = ⟨some 0, none, none, none⟩ ∧
      (terminate o s).2.trace =
        s.trace ++ [Ev.atexitUnregister] ++ cbEvents s.fac.before_terminate_callbacks
          ++ [Ev.containersGet cid] ++ cbEvents s.fac.after_terminate_callbacks) := by
  refine ⟨terminate_trace o s, ?_⟩
  intro cid hc hnf
  have h2fac : (runCallbacks (note s Ev.atexitUnregister)
      (note s Ev.atexitUnregister).fac.before_terminate_callbacks).fac = s.fac := by
    rw [runCallbacks_fac, note_fac]
  have htb := terminateTryBlock_notFound o
    (runCallbacks (note s Ev.atexitUnregister)
      (note s Ev.atexitUnregister).fac.before_terminate_callbacks) cid
    (by rw [h2fac, hc]) (hnf _)
  constructor
  · rw [terminate]
    dsimp only
    rw [htb]
  · rw [terminate]
    dsimp only
    rw [htb]
    dsimp only
    rw [runCallbacks_trace, eff_fac, h2fac, eff_trace, runCallbacks_trace, note_trace, note_fac]

/-- Witness for C9: NotFound on the teardown `get` is swallowed and the
after-terminate hooks still close the trace. -/
theorem afterTerminateHooksAlwaysRun_witness :
    (terminate oracleNotFound (init { facBase with container := some 7 })).1 =
      ⟨some 0, none, none, none⟩ ∧
    (terminate oracleNotFound (init { facBase with container := some 7 })).2.trace =
      (init { facBase with container := some 7 }).trace ++ [Ev.atexitUnregister]
        ++ cbEvents (init { facBase with container := some 7 }).fac.before_terminate_callbacks
        ++ [Ev.containersGet 7]
        ++ cbEvents (init { facBase with container := some 7 }).fac.after_terminate_callbacks :=
  (afterTerminateHooksAlwaysRun oracleNotFound (init { facBase with container := some 7 })).2
    7 (by decide) (fun _ => rfl)

/-- C10: `is_running` on a controller with an absent container handle does
not return a boolean but fails with `AttributeError` (the `.status`
dereference of `None`), and consequently `__enter__` on a never-started
controller fails with that same `AttributeError` rather than the documented
"Factory not yet started" `RuntimeError`; with a handle present,
`is_running` returns whether the observed status equals "running". -/
theorem isRunningAbsentHandleFails (o : Oracle) (s : St) :
    (s.fac.container = none →
      is_running o s = .error PyErr.attributeError ∧
      enterCtx o s = .error PyErr.attributeError) ∧
    (∀ cid, s.fac.container = some cid →
      is_running o s =
        .ok (o.status s.idx == "running", note s (.statusRead (o.status s.idx)))) := by
  constructor
  · intro h
    have h1 : is_running o s = .error PyErr.attributeError := by rw [is_running, h]
    exact ⟨h1, by rw [enterCtx, h1]⟩
  · intro cid h
    rw [is_running, h]
    rfl

/-- Witness for C10 on a never-started controller. -/
theorem isRunningAbsentHandleFails_witness :
    is_running oracleAllRunning (init facBase) = .error PyErr.attributeError ∧
    enterCtx oracleAllRunning (init facBase) = .error PyErr.attributeError :=
  (isRunningAbsentHandleFails oracleAllRunning (init facBase)).1 (by decide)

theorem pollDouble_eq (o : Oracle) (cid : Nat) (s2 : St) :
    pollDouble o cid s2 =
      (o.status (s2.idx + 2),
        { fac := if o.status s2.idx == "running" then s2.fac
                 else { s2.fac with container := some cid },
          clock := s2.clock, idx := s2.idx + 3,
          trace := s2.trace ++ [Ev.statusRead (o.status s2.idx),
            Ev.statusRead (o.status (s2.idx + 1)), Ev.statusRead (o.status (s2.idx + 2))] }) := by
  rw [pollDouble]
  dsimp only
  split
  · rename_i hst
    simp only [readStatus] at hst
    simp [readStatus, note, hst]
  · rename_i hst
    simp only [readStatus] at hst
    rw [if_neg hst]
    simp [readStatus, note]

/-- C7: in a poll iteration within the deadline whose fresh status poll
observes "running" but whose `is_running()` double check observes a
non-"running" status (a flapped resource), the controller force-removes the
resource, waits for the removal, clears its handle and breaks out of the
polling loop reporting not-started — the iteration's trace extension is
exactly the fetch, the four status observations, the forced remove and the
wait, with no teardown and no further polling, so the enclosing attempt loop
proceeds to its next attempt; and a whole `start` call against a backend that
flaps on the first attempt and runs on the second returns `True` instead of
failing. -/
theorem flapRemovesAndRetries (o : Oracle) (t cid fuel : Nat) (s : St)
    (hclock : s.clock ≤ t)
    (hrun : o.status (s.idx + 1) = "running")
    (hflap : o.status (s.idx + 4) ≠ "running") :
    pollLoopF o t cid (fuel + 1) s =
      (false,
        { fac := { s.fac with container := none },
          clock := s.clock + 1 + o.dt s.idx + 1 + o.dt (s.idx + 5) + 1 + o.dt (s.idx + 6),
          idx := s.idx + 7,
          trace := s.trace ++ [Ev.containersGet cid, Ev.statusRead (o.status (s.idx + 1)),
            Ev.statusRead (o.status (s.idx + 2)), Ev.statusRead (o.status (s.idx + 3)),
            Ev.statusRead (o.status (s.idx + 4)), Ev.removeForce cid,
            Ev.waitContainer cid] }) ∧
    (start oracleFlapOnce none none (init facBase)).1 = StartOutcome.ok := by
  refine ⟨?_, by decide⟩
  rw [pollLoopF]
  dsimp only
  rw [if_pos hclock]
  have c1 : ((readStatus o (eff o s (Ev.containersGet cid))).1 == "running") = true := by
    simp [readStatus, eff, hrun]
  rw [if_pos c1, pollDouble_eq]
  dsimp only [readStatus, note, eff]
  have e4 : s.idx + 1 + 1 + 2 = s.idx + 4 := by omega
  have c4 : ¬((o.status (s.idx + 1 + 1 + 2) == "running") = true) := by
    rw [e4]
    simpa using hflap
  rw [if_neg c4]
  split <;> simp [St.mk.injEq, Factory.mk.injEq, eff, note]

/-- Witness for C7: a concrete in-deadline iteration whose double check flaps
(fresh read "running" at observation 5, `is_running()` read "created" at
observation 8) removes the container, waits, clears the handle and breaks. -/
theorem flapRemovesAndRetries_witness :
    pollLoopF oracleFlapOnce 5 3 10 ⟨{ facBase with container := some 3 }, 0, 4, []⟩ =
      (false,
        { fac := { { facBase with container := some 3 } with container := none },
          clock := 0 + 1 + oracleFlapOnce.dt 4 + 1 + oracleFlapOnce.dt (4 + 5) + 1 +
            oracleFlapOnce.dt (4 + 6),
          idx := 4 + 7,
          trace := [] ++ [Ev.containersGet 3, Ev.statusRead (oracleFlapOnce.status (4 + 1)),
            Ev.statusRead (oracleFlapOnce.status (4 + 2)),
            Ev.statusRead (oracleFlapOnce.status (4 + 3)),
            Ev.statusRead (oracleFlapOnce.status (4 + 4)), Ev.removeForce 3,
            Ev.waitContainer 3] }) ∧
    (start oracleFlapOnce none none (init facBase)).1 = StartOutcome.ok :=
  flapRemovesAndRetries oracleFlapOnce 5 3 9 ⟨{ facBase with container := some 3 }, 0, 4, []⟩
    (by decide) (by decide) (by decide)

end ContainerSpec
